import Mathlib

/-!
Shallow embedding of the statistical core of the word-frequency comparison
program (`main.py` and `determine_p_values.py`): per-document word counts,
candidate-word selection, and the resampling p-value computation.

Modelling conventions: a Python dict of word counts is an association list
`List (String × Nat)`; Python floats are rationals `ℚ` (every quantity
involved is an exact ratio of integers); the random source
`random.randint(0, len(uni_sample) - 1)` is an arbitrary stream
`idx : Nat → Nat` of drawn indices, consumed sequentially, each assumed to
be in range `[0, n+m)`; a Python exception is `Except.error` carrying the
exception name; the language detector `langdetect.detect` is an arbitrary
function `String → Option String`, where `none` models the detector raising
an exception.
-/

namespace Project109

/-- Python dict lookup `post.get(word, dflt)` on an association list. -/
def dictGet (post : List (String × Nat)) (word : String) (dflt : Nat) : Nat :=
  match post.find? (fun p => p.1 == word) with
  | some p => p.2
  | none => dflt

/-- Per-document counts of `word`: `[post.get(word, 0) for post in posts]`. -/
def postNums (posts : List (List (String × Nat))) (word : String) : List Nat :=
  posts.map (fun post => dictGet post word 0)

/-- Arithmetic mean of a list of counts, as a rational. -/
def mean (l : List Nat) : ℚ :=
  (l.sum : ℚ) / (l.length : ℚ)

/-- One resample of `size` values drawn from `pool` at the positions given by
the random-index stream `idx` starting at stream offset `off`, modelling
`[uni_sample[random.randint(0, len(uni_sample) - 1)] for i in range(size)]`. -/
def resampleAt (pool : List Nat) (idx : Nat → Nat) (off size : Nat) : List Nat :=
  (List.range size).map (fun i => pool.getD (idx (off + i)) 0)

/-- Error string modelling the ZeroDivisionError Python raises when
`sum(...)/n` or `sum(...)/m` divides by zero. -/
def zeroDivError : String := "ZeroDivisionError: division by zero"

/-- Body of the resampling loop of `calculate_p_value`, for iteration `t`:
draw `a_resample` of size `n` and `b_resample` of size `m` from the pool,
and increment the running counter when `diff >= observed_diff`. -/
def loopStep (uni_sample : List Nat) (idx : Nat → Nat) (n m : Nat)
    (observed_diff : ℚ) (count t : Nat) : Nat :=
  let a_resample := resampleAt uni_sample idx (t * (n + m)) n
  let b_resample := resampleAt uni_sample idx (t * (n + m) + n) m
  let mua := (a_resample.sum : ℚ) / (n : ℚ)
  let mub := (b_resample.sum : ℚ) / (m : ℚ)
  let diff := |mua - mub|
  if diff ≥ observed_diff then count + 1 else count

/-- Embedding of `calculate_p_value(posts, llm_responses, word)` from
`main.py` (lines 125-146): observed absolute difference of the two
per-document mean counts, then 10000 resampling iterations, each drawing a
resample of size `n` and one of size `m` from the pooled counts and counting
the iterations whose absolute mean difference is at least the observed one.
Iteration `t` consumes stream positions `t*(n+m), ..., t*(n+m)+n+m-1`.
Returns the pair (observed difference, empirical p-value). -/
def calculate_p_value (posts llm_responses : List (List (String × Nat)))
    (word : String) (idx : Nat → Nat) : Except String (ℚ × ℚ) :=
  let post_nums := postNums posts word
  let llm_response_nums := postNums llm_responses word
  let n := post_nums.length
  let m := llm_response_nums.length
  if n = 0 ∨ m = 0 then .error zeroDivError
  else
    let observed_diff :=
      |(post_nums.sum : ℚ) / (n : ℚ) - (llm_response_nums.sum : ℚ) / (m : ℚ)|
    let uni_sample := post_nums ++ llm_response_nums
    let count :=
      (List.range 10000).foldl (loopStep uni_sample idx n m observed_diff) 0
    .ok (observed_diff, (count : ℚ) / 10000)

theorem postNums_length (posts : List (List (String × Nat))) (word : String) :
    (postNums posts word).length = posts.length := by
  simp [postNums]

theorem resampleAt_length (pool : List Nat) (idx : Nat → Nat) (off size : Nat) :
    (resampleAt pool idx off size).length = size := by
  simp [resampleAt]

theorem mean_resampleAt (pool : List Nat) (idx : Nat → Nat) (off size : Nat) :
    mean (resampleAt pool idx off size)
      = ((resampleAt pool idx off size).sum : ℚ) / (size : ℚ) := by
  simp [mean, resampleAt_length]

/-- Running the resampling loop for `k` iterations counts the iterations
whose resample mean difference reaches `obs`. -/
theorem foldl_loopStep (pool : List Nat) (idx : Nat → Nat) (n m : Nat)
    (obs : ℚ) (k : Nat) (c : Nat) :
    (List.range k).foldl (loopStep pool idx n m obs) c
      = c + ((Finset.range k).filter (fun t =>
          |((resampleAt pool idx (t * (n + m)) n).sum : ℚ) / (n : ℚ)
            - ((resampleAt pool idx (t * (n + m) + n) m).sum : ℚ) / (m : ℚ)|
          ≥ obs)).card := by
  induction k with
  | zero => simp
  | succ k ih =>
    rw [List.range_succ, List.foldl_append, List.foldl_cons, List.foldl_nil, ih,
      Finset.range_succ, Finset.filter_insert]
    simp only [loopStep]
    by_cases h : |((resampleAt pool idx (k * (n + m)) n).sum : ℚ) / (n : ℚ)
        - ((resampleAt pool idx (k * (n + m) + n) m).sum : ℚ) / (m : ℚ)| ≥ obs
    · rw [if_pos h, if_pos h, Finset.card_insert_of_not_mem (by simp)]
      omega
    · rw [if_neg h, if_neg h]

/-- Characterization of the resampling loop: the returned pair is the
observed mean difference together with the count of iterations whose
resample mean difference reaches it, divided by 10000. -/
theorem calculate_p_value_spec (posts llm_responses : List (List (String × Nat)))
    (word : String) (idx : Nat → Nat)
    (hn : posts ≠ []) (hm : llm_responses ≠ []) :
    calculate_p_value posts llm_responses word idx = .ok
      (|mean (postNums posts word) - mean (postNums llm_responses word)|,
        (((Finset.range 10000).filter (fun t =>
          |mean (resampleAt (postNums posts word ++ postNums llm_responses word) idx
              (t * (posts.length + llm_responses.length)) posts.length)
            - mean (resampleAt (postNums posts word ++ postNums llm_responses word) idx
              (t * (posts.length + llm_responses.length) + posts.length)
              llm_responses.length)|
          ≥ |mean (postNums posts word) - mean (postNums llm_responses word)|)).card : ℚ)
        / 10000) := by
  have hn0 : posts.length ≠ 0 := by
    simp only [ne_eq, List.length_eq_zero]
    exact hn
  have hm0 : llm_responses.length ≠ 0 := by
    simp only [ne_eq, List.length_eq_zero]
    exact hm
  simp only [calculate_p_value, postNums_length]
  rw [if_neg (by tauto)]
  rw [foldl_loopStep, Nat.zero_add]
  simp only [mean, resampleAt_length, postNums_length]

/-- Degenerate input: an empty corpus on either side makes
`calculate_p_value` fail with the division-by-zero error. -/
theorem calculate_p_value_degenerate (posts llm_responses : List (List (String × Nat)))
    (word : String) (idx : Nat → Nat) (h : posts = [] ∨ llm_responses = []) :
    calculate_p_value posts llm_responses word idx = .error zeroDivError := by
  simp only [calculate_p_value, postNums_length]
  rw [if_pos]
  rcases h with h | h
  · exact Or.inl (by simp [h])
  · exact Or.inr (by simp [h])

/-- Embedding of the word loop of `calculate_p_values` from `main.py`
(lines 148-162): `final_p_values[word] = calculate_p_value(posts,
llm_responses, word)` for each word in order, with no exception handling
around the call, so an error from any word propagates. The stream family
`idxs` supplies the random indices consumed by the `k`-th word's test. -/
def calculate_p_values (posts llm_responses : List (List (String × Nat)))
    (idxs : Nat → Nat → Nat) :
    List String → Nat → Except String (List (String × (ℚ × ℚ)))
  | [], _ => .ok []
  | word :: words, k =>
    match calculate_p_value posts llm_responses word (idxs k) with
    | .error e => .error e
    | .ok r =>
      match calculate_p_values posts llm_responses idxs words (k + 1) with
      | .error e => .error e
      | .ok rest => .ok ((word, r) :: rest)

/-- C1: for every pair of corpora with n, m >= 1 and every in-range random
index stream, the permutation test pools all n+m per-document counts, runs
exactly 10000 iterations, draws per iteration a resample of size n and one
of size m from the pool, counts the iterations with
|mean(A) - mean(B)| >= observedDiff (inclusive comparison), and returns the
empirical p-value count / 10000. -/
theorem claim_C1 (posts llm_responses : List (List (String × Nat)))
    (word : String) (idx : Nat → Nat)
    (hn : posts ≠ []) (hm : llm_responses ≠ [])
    (_hidx : ∀ k, idx k < posts.length + llm_responses.length) :
    calculate_p_value posts llm_responses word idx = .ok
      (|mean (postNums posts word) - mean (postNums llm_responses word)|,
        (((Finset.range 10000).filter (fun t =>
          |mean (resampleAt (postNums posts word ++ postNums llm_responses word) idx
              (t * (posts.length + llm_responses.length)) posts.length)
            - mean (resampleAt (postNums posts word ++ postNums llm_responses word) idx
              (t * (posts.length + llm_responses.length) + posts.length)
              llm_responses.length)|
          ≥ |mean (postNums posts word) - mean (postNums llm_responses word)|)).card : ℚ)
        / 10000) :=
  calculate_p_value_spec posts llm_responses word idx hn hm

/-- Witness for C1 at a concrete input. -/
theorem claim_C1_witness :
    ∃ d p, calculate_p_value [[("x", 2)], [], [("x", 1)]] [[], [], []] "x"
      (fun _ => 0) = .ok (d, p) :=
  ⟨_, _, claim_C1 [[("x", 2)], [], [("x", 1)]] [[], [], []] "x" (fun _ => 0)
    (by simp) (by simp) (by intro k; simp)⟩

/-- C2: the observed statistic equals the absolute difference of the two
per-document mean counts, and at the concrete corpora with community counts
[2,0,1] and generated counts [0,0,0] it equals exactly 1. -/
theorem claim_C2 :
    (∀ (posts llm_responses : List (List (String × Nat))) (word : String)
        (idx : Nat → Nat), posts ≠ [] → llm_responses ≠ [] →
      ∃ p, calculate_p_value posts llm_responses word idx
        = .ok (|mean (postNums posts word) - mean (postNums llm_responses word)|, p))
    ∧ |mean (postNums [[("x", 2)], [], [("x", 1)]] "x")
        - mean (postNums [[], [], []] "x")| = 1
    ∧ ∃ p, calculate_p_value [[("x", 2)], [], [("x", 1)]] [[], [], []] "x"
        (fun _ => 0) = .ok (1, p) := by
  have h2 : |mean (postNums [[("x", 2)], [], [("x", 1)]] "x")
      - mean (postNums [[], [], []] "x")| = 1 := by
    show |mean [2, 0, 1] - mean [0, 0, 0]| = 1
    simp [mean]
  refine ⟨?_, h2, ?_⟩
  · intro posts llm_responses word idx hn hm
    exact ⟨_, calculate_p_value_spec posts llm_responses word idx hn hm⟩
  · have h := calculate_p_value_spec [[("x", 2)], [], [("x", 1)]] [[], [], []] "x"
      (fun _ => 0) (by simp) (by simp)
    rw [h2] at h
    exact ⟨_, h⟩

/-- Witness for C2 at a concrete input. -/
theorem claim_C2_witness :
    ∃ p, calculate_p_value [[("y", 1)]] [[]] "y" (fun _ => 0)
      = .ok (|mean (postNums [[("y", 1)]] "y") - mean (postNums [[]] "y")|, p) :=
  claim_C2.1 [[("y", 1)]] [[]] "y" (fun _ => 0) (by simp) (by simp)

/-- C3: the test fails with the division-by-zero domain error exactly when
one of the corpora is empty; it never divides by zero silently. -/
theorem claim_C3 (posts llm_responses : List (List (String × Nat)))
    (word : String) (idx : Nat → Nat) :
    calculate_p_value posts llm_responses word idx = .error zeroDivError
      ↔ (posts = [] ∨ llm_responses = []) := by
  constructor
  · intro h
    by_contra hcon
    push_neg at hcon
    rw [calculate_p_value_spec posts llm_responses word idx hcon.1 hcon.2] at h
    exact absurd h (by simp)
  · exact calculate_p_value_degenerate posts llm_responses word idx

/-- C4 counterexample: with an empty community corpus, the batch loop
returns a single propagated error instead of per-word error entries; the
second word's test is never reported. -/
theorem claim_C4_counterexample :
    calculate_p_values [] [[]] (fun _ _ => 0) ["a", "b"] 0
      = .error zeroDivError := by
  rfl

/-- C4 (amended): a degenerate corpus makes the first word's test raise,
and the uncaught exception aborts the whole batch: `calculate_p_values`
returns the propagated error and reports no per-word result at all. -/
theorem claim_C4 (posts llm_responses : List (List (String × Nat)))
    (idxs : Nat → Nat → Nat) (words : List String) (k : Nat)
    (h : posts = [] ∨ llm_responses = []) (hw : words ≠ []) :
    calculate_p_values posts llm_responses idxs words k = .error zeroDivError := by
  cases words with
  | nil => exact absurd rfl hw
  | cons w ws =>
    simp only [calculate_p_values]
    rw [calculate_p_value_degenerate posts llm_responses w (idxs k) h]

/-- Witness for the amended C4 at a concrete input. -/
theorem claim_C4_witness :
    calculate_p_values [] [[("a", 1)]] (fun _ _ => 0) ["a", "b"] 0
      = .error zeroDivError :=
  claim_C4 [] [[("a", 1)]] (fun _ _ => 0) ["a", "b"] 0 (Or.inl rfl) (by simp)

/-- C8: when the two per-document count lists for a word are identical
multisets, the observed difference is 0, every one of the 10000 iterations
increments the counter, and the returned p-value is exactly 1. -/
theorem claim_C8 (posts llm_responses : List (List (String × Nat)))
    (word : String) (idx : Nat → Nat) (hn : posts ≠ [])
    (hperm : (postNums posts word).Perm (postNums llm_responses word)) :
    calculate_p_value posts llm_responses word idx = .ok (0, 1) := by
  have hm : llm_responses ≠ [] := by
    intro h
    subst h
    have hlen := hperm.length_eq
    simp only [postNums_length, List.length_nil] at hlen
    exact hn (List.length_eq_zero.mp hlen)
  rw [calculate_p_value_spec posts llm_responses word idx hn hm]
  have hmean : mean (postNums posts word) = mean (postNums llm_responses word) := by
    unfold mean
    rw [hperm.sum_eq, hperm.length_eq]
  have hobs : |mean (postNums posts word) - mean (postNums llm_responses word)| = 0 := by
    rw [hmean]
    simp
  rw [hobs]
  rw [Finset.filter_true_of_mem (fun t _ => abs_nonneg _)]
  rw [Finset.card_range]
  norm_num

/-- Witness for C8 at a concrete input. -/
theorem claim_C8_witness :
    calculate_p_value [[("a", 1)], []] [[], [("a", 1)]] "a" (fun _ => 0)
      = .ok (0, 1) :=
  claim_C8 [[("a", 1)], []] [[], [("a", 1)]] "a" (fun _ => 0) (by simp) (by decide)

/-- The apostrophe character, used by the contraction filter
`"'" not in word`. -/
def apos : Char := Char.ofNat 39

/-- Embedding of `x_most_common_words(x)` from `main.py` (lines 27-40):
the first column of the first `x` rows of the ranked word-frequency
dataset, here abstracted as the ranked word list `unigram`. -/
def x_most_common_words (unigram : List String) (x : Nat) : List String :=
  unigram.take x

/-- Embedding of `dataset_to_list(file_path)` from `main.py` (lines 42-50):
`for row in reader: return row` returns the first parsed row and ignores
the rest; a file with no rows falls through and returns `None`. -/
def dataset_to_list (rows : List (List String)) : Option (List String) :=
  rows.head?

/-- Words of `l` in first-occurrence order, as iterated by Python
`for word in counts` over a `Counter` built from `l`. -/
def uniqueKeys : List String → List String
  | [] => []
  | w :: ws => w :: (uniqueKeys ws).filter (fun v => v ≠ w)

/-- Python `Counter(l)` as an association list: each distinct word of `l`
in first-occurrence order, mapped to its number of occurrences in `l`. -/
def counter (l : List String) : List (String × Nat) :=
  (uniqueKeys l).map (fun w => (w, l.count w))

/-- The try/except-guarded filter body of the selector loop: the word is
kept when the detector classifies it as English and it contains no
apostrophe (the contraction check, done on the character sequence); a
detector exception (modelled by `none`) is caught and treated as a failed
filter. -/
def detectKeep (detect : String → Option String) (w : String) : Bool :=
  match detect w with
  | some lang => lang == "en" && !(w.data.contains apos)
  | none => false

/-- The `discussion_dict` built by the selector loop (`main.py` lines
66-74): the counted community words that pass the language/contraction
filter. -/
def discussion_dict (detect : String → Option String)
    (discussion_list : List String) : List (String × Nat) :=
  (counter discussion_list).filter (fun p => detectKeep detect p.1)

/-- Restriction of `discussion_dict` to `common_keys_set`, the keys shared
with `llm_dict = counter(llm_list)` (`main.py` lines 75-77); the generated
side is counted with no language filter. -/
def commonFiltered (detect : String → Option String)
    (discussion_list llm_list : List String) : List (String × Nat) :=
  (discussion_dict detect discussion_list).filter
    (fun p => (counter llm_list).any (fun q => q.1 == p.1))

/-- Stable insertion of a counted word into a list sorted by descending
count. -/
def insertByCount (p : String × Nat) : List (String × Nat) → List (String × Nat)
  | [] => [p]
  | q :: qs => if q.2 ≤ p.2 then p :: q :: qs else q :: insertByCount p qs

/-- Sort counted words by descending count (stable), as
`Counter(...).most_common` does. -/
def sortByCountDesc : List (String × Nat) → List (String × Nat)
  | [] => []
  | p :: ps => insertByCount p (sortByCountDesc ps)

/-- Python `Counter(d).most_common(y)`: the `y` highest-count entries in
descending count order. -/
def most_common (y : Nat) (d : List (String × Nat)) : List (String × Nat) :=
  (sortByCountDesc d).take y

/-- The exclusion step `[word for word in lst if word not in words_to_exclude]`. -/
def excludeCommon (unigram : List String) (x : Nat) (l : List String) : List String :=
  l.filter (fun w => !((x_most_common_words unigram x).contains w))

/-- The words surviving all of the selector's filters for given corpus
rows: exclusion of the `x` most common words on both sides, the
language/contraction filter on the community side, and the intersection of
the two key sets; each with its community count. -/
def survivors (detect : String → Option String) (unigram : List String)
    (x : Nat) (discussion_list llm_list : List String) : List (String × Nat) :=
  commonFiltered detect (excludeCommon unigram x discussion_list)
    (excludeCommon unigram x llm_list)

/-- Error string modelling the TypeError Python raises when iterating the
`None` returned by `dataset_to_list` on a rowless file. -/
def noneIterError : String := "TypeError: NoneType object is not iterable"

/-- Embedding of `make_y_most_common_word_dicts(y, x, discussion_csv,
llm_csv)` from `main.py` (lines 52-77): the `y` most common surviving
community words together with their community counts. -/
def make_y_most_common_word_dicts (y x : Nat) (unigram : List String)
    (discussion_csv llm_csv : List (List String))
    (detect : String → Option String) : Except String (List (String × Nat)) :=
  match dataset_to_list discussion_csv, dataset_to_list llm_csv with
  | some discussion_list, some llm_list =>
    .ok (most_common y (survivors detect unigram x discussion_list llm_list))
  | _, _ => .error noneIterError

theorem mem_uniqueKeys (w : String) : ∀ l : List String, w ∈ uniqueKeys l ↔ w ∈ l := by
  intro l
  induction l with
  | nil => simp [uniqueKeys]
  | cons a l ih =>
    simp only [uniqueKeys, List.mem_cons]
    constructor
    · rintro (rfl | h)
      · exact Or.inl rfl
      · exact Or.inr (ih.mp (List.mem_of_mem_filter h))
    · rintro (rfl | h)
      · exact Or.inl rfl
      · by_cases hw : w = a
        · exact Or.inl hw
        · exact Or.inr (List.mem_filter.mpr ⟨ih.mpr h, by simp [hw]⟩)

theorem counter_mem {w : String} {c : Nat} {l : List String}
    (h : (w, c) ∈ counter l) : w ∈ l ∧ c = l.count w := by
  obtain ⟨v, hv, heq⟩ := List.mem_map.mp h
  have h1 : v = w := congrArg Prod.fst heq
  have h2 : l.count v = c := congrArg Prod.snd heq
  subst h1
  exact ⟨(mem_uniqueKeys v l).mp hv, h2.symm⟩

theorem counter_keys_mem {w : String} {l : List String}
    (h : w ∈ l) : (w, l.count w) ∈ counter l :=
  List.mem_map.mpr ⟨w, (mem_uniqueKeys w l).mpr h, rfl⟩

theorem insertByCount_perm (p : String × Nat) (l : List (String × Nat)) :
    (insertByCount p l).Perm (p :: l) := by
  induction l with
  | nil => simp [insertByCount]
  | cons q qs ih =>
    simp only [insertByCount]
    by_cases h : q.2 ≤ p.2
    · rw [if_pos h]
    · rw [if_neg h]
      exact ((ih.cons q).trans (List.Perm.swap p q qs))

theorem sortByCountDesc_perm (l : List (String × Nat)) :
    (sortByCountDesc l).Perm l := by
  induction l with
  | nil => simp [sortByCountDesc]
  | cons p ps ih =>
    exact (insertByCount_perm p (sortByCountDesc ps)).trans (ih.cons p)

theorem most_common_subset {q : String × Nat} {y : Nat} {d : List (String × Nat)}
    (h : q ∈ most_common y d) : q ∈ d :=
  (sortByCountDesc_perm d).mem_iff.mp (List.mem_of_mem_take h)

theorem most_common_length (y : Nat) (d : List (String × Nat)) :
    (most_common y d).length ≤ y := by
  simp [most_common]

theorem most_common_all {y : Nat} {d : List (String × Nat)}
    (h : d.length ≤ y) : (most_common y d).Perm d := by
  have hlen : (sortByCountDesc d).length = d.length :=
    (sortByCountDesc_perm d).length_eq
  rw [most_common, List.take_of_length_le (by omega)]
  exact sortByCountDesc_perm d

theorem mem_survivors {detect : String → Option String} {unigram : List String}
    {x : Nat} {dl ll : List String} {w : String} {c : Nat}
    (h : (w, c) ∈ survivors detect unigram x dl ll) :
    detectKeep detect w = true
      ∧ w ∈ dl ∧ w ∈ ll ∧ w ∉ x_most_common_words unigram x := by
  have h1 := List.mem_filter.mp h
  have h2 := List.mem_filter.mp h1.1
  have hkeep : detectKeep detect w = true := h2.2
  have hdl1 : w ∈ excludeCommon unigram x dl := (counter_mem h2.1).1
  have hdlf := List.mem_filter.mp hdl1
  obtain ⟨q, hq, hbeq⟩ := List.any_eq_true.mp h1.2
  obtain ⟨q1, q2⟩ := q
  have hq1 : q1 = w := by simpa using hbeq
  rw [hq1] at hq
  have hll1 : w ∈ excludeCommon unigram x ll := (counter_mem hq).1
  have hllf := List.mem_filter.mp hll1
  refine ⟨hkeep, hdlf.1, hllf.1, ?_⟩
  intro hmem
  have hc := hdlf.2
  rw [Bool.not_eq_true'] at hc
  have hmem1 : (x_most_common_words unigram x).contains w = true :=
    List.elem_iff.mpr hmem
  rw [hc] at hmem1
  exact Bool.false_ne_true hmem1

theorem detectKeep_eq_true {detect : String → Option String} {w : String}
    (h : detectKeep detect w = true) :
    detect w = some "en" ∧ w.data.contains apos = false := by
  cases hdet : detect w with
  | none => simp [detectKeep, hdet] at h
  | some lang =>
    simp only [detectKeep, hdet] at h
    obtain ⟨h1, h2⟩ := Bool.and_eq_true_iff.mp h
    have hlang : lang = "en" := by simpa using h1
    subst hlang
    exact ⟨rfl, by simpa using h2⟩

theorem make_y_ok_elim {y x : Nat} {unigram : List String}
    {discussion_csv llm_csv : List (List String)}
    {detect : String → Option String} {res : List (String × Nat)}
    (hres : make_y_most_common_word_dicts y x unigram discussion_csv llm_csv detect
      = .ok res) :
    ∃ dlst llst, dataset_to_list discussion_csv = some dlst
      ∧ dataset_to_list llm_csv = some llst
      ∧ res = most_common y (survivors detect unigram x dlst llst) := by
  unfold make_y_most_common_word_dicts at hres
  cases hdeq : dataset_to_list discussion_csv with
  | none => rw [hdeq] at hres; exact absurd hres (by simp)
  | some dlst =>
    cases hleq : dataset_to_list llm_csv with
    | none => rw [hdeq, hleq] at hres; exact absurd hres (by simp)
    | some llst =>
      rw [hdeq, hleq] at hres
      exact ⟨dlst, llst, rfl, rfl, (Except.ok.inj hres).symm⟩

/-- C5: every word in an ok result of the selector is absent from the
exclusion set, classified English with no apostrophe, and occurs at least
once in each corpus's aggregate counts. -/
theorem claim_C5 (y x : Nat) (unigram : List String)
    (discussion_csv llm_csv : List (List String))
    (detect : String → Option String) (res : List (String × Nat))
    (hres : make_y_most_common_word_dicts y x unigram discussion_csv llm_csv detect
      = .ok res)
    (w : String) (c : Nat) (hw : (w, c) ∈ res) :
    w ∉ x_most_common_words unigram x
      ∧ detect w = some "en" ∧ w.data.contains apos = false
      ∧ (∃ dlst, dataset_to_list discussion_csv = some dlst ∧ 1 ≤ dlst.count w)
      ∧ (∃ llst, dataset_to_list llm_csv = some llst ∧ 1 ≤ llst.count w) := by
  obtain ⟨dlst, llst, hdeq, hleq, rfl⟩ := make_y_ok_elim hres
  obtain ⟨hkeep, hdl, hll, hnx⟩ := mem_survivors (most_common_subset hw)
  obtain ⟨hen, hap⟩ := detectKeep_eq_true hkeep
  exact ⟨hnx, hen, hap,
    ⟨dlst, hdeq, List.count_pos_iff.mpr hdl⟩,
    ⟨llst, hleq, List.count_pos_iff.mpr hll⟩⟩

/-- Witness for C5 at a concrete input. -/
theorem claim_C5_witness :
    "hello" ∉ x_most_common_words ["the"] 1
      ∧ (fun _ => some "en") "hello" = some "en"
      ∧ "hello".data.contains apos = false
      ∧ (∃ dlst, dataset_to_list [["hello", "world"]] = some dlst
          ∧ 1 ≤ dlst.count "hello")
      ∧ (∃ llst, dataset_to_list [["hello"]] = some llst
          ∧ 1 ≤ llst.count "hello") :=
  claim_C5 3 1 ["the"] [["hello", "world"]] [["hello"]] (fun _ => some "en")
    (most_common 3 (survivors (fun _ => some "en") ["the"] 1 ["hello", "world"] ["hello"]))
    rfl "hello" 1 (by decide)

/-- C6: an ok result of the selector has at most `y` entries, and when at
most `y` words survive the filters the result is all of them. -/
theorem claim_C6 (y x : Nat) (unigram : List String)
    (discussion_csv llm_csv : List (List String))
    (detect : String → Option String) (res : List (String × Nat))
    (hres : make_y_most_common_word_dicts y x unigram discussion_csv llm_csv detect
      = .ok res) :
    res.length ≤ y
      ∧ ∀ dlst llst, dataset_to_list discussion_csv = some dlst →
          dataset_to_list llm_csv = some llst →
          (survivors detect unigram x dlst llst).length ≤ y →
          res.Perm (survivors detect unigram x dlst llst) := by
  obtain ⟨dlst, llst, hdeq, hleq, rfl⟩ := make_y_ok_elim hres
  refine ⟨most_common_length y _, ?_⟩
  intro dlst2 llst2 hdeq2 hleq2 hlen
  obtain rfl : dlst = dlst2 := Option.some.inj (hdeq.symm.trans hdeq2)
  obtain rfl : llst = llst2 := Option.some.inj (hleq.symm.trans hleq2)
  exact most_common_all hlen

/-- Witness for C6 at a concrete input. -/
theorem claim_C6_witness :
    (most_common 2 (survivors (fun _ => some "en") [] 0 ["a", "a", "b"] ["a", "b"])).length ≤ 2
      ∧ (most_common 2 (survivors (fun _ => some "en") [] 0 ["a", "a", "b"] ["a", "b"])).Perm
          (survivors (fun _ => some "en") [] 0 ["a", "a", "b"] ["a", "b"]) :=
  ⟨(claim_C6 2 0 [] [["a", "a", "b"]] [["a", "b"]] (fun _ => some "en")
      (most_common 2 (survivors (fun _ => some "en") [] 0 ["a", "a", "b"] ["a", "b"])) rfl).1,
    (claim_C6 2 0 [] [["a", "a", "b"]] [["a", "b"]] (fun _ => some "en")
      (most_common 2 (survivors (fun _ => some "en") [] 0 ["a", "a", "b"] ["a", "b"])) rfl).2
      ["a", "a", "b"] ["a", "b"] rfl rfl (by decide)⟩

theorem detectKeep_congr {detect1 detect2 : String → Option String} {w : String}
    (h : detect1 w = detect2 w) :
    detectKeep detect1 w = detectKeep detect2 w := by
  unfold detectKeep
  rw [h]

theorem survivors_detect_congr {detect1 detect2 : String → Option String}
    {unigram : List String} {x : Nat} {dlst llst : List String}
    (h : ∀ w, w ∈ dlst → detect1 w = detect2 w) :
    survivors detect1 unigram x dlst llst = survivors detect2 unigram x dlst llst := by
  unfold survivors commonFiltered
  rw [show discussion_dict detect1 (excludeCommon unigram x dlst)
      = discussion_dict detect2 (excludeCommon unigram x dlst) from ?_]
  unfold discussion_dict
  apply List.filter_congr
  intro p hp
  obtain ⟨p1, p2⟩ := p
  have hmem : p1 ∈ excludeCommon unigram x dlst := (counter_mem hp).1
  exact detectKeep_congr (h p1 (List.mem_filter.mp hmem).1)

/-- C7: the language filter never propagates a detector failure (the
selector still returns an ok result), a word on which the detector fails is
dropped from the result, and the result depends on the detector only
through the community corpus's words — the generated side is restricted
only by the exclusion set. -/
theorem claim_C7 (y x : Nat) (unigram : List String)
    (discussion_csv llm_csv : List (List String)) :
    (∀ detect : String → Option String, discussion_csv ≠ [] → llm_csv ≠ [] →
      ∃ res, make_y_most_common_word_dicts y x unigram discussion_csv llm_csv detect
        = .ok res)
    ∧ (∀ (detect : String → Option String) (w : String) (c : Nat)
        (res : List (String × Nat)), detect w = none →
        make_y_most_common_word_dicts y x unigram discussion_csv llm_csv detect
          = .ok res →
        (w, c) ∉ res)
    ∧ (∀ detect1 detect2 : String → Option String,
        (∀ w dlst, dataset_to_list discussion_csv = some dlst → w ∈ dlst →
          detect1 w = detect2 w) →
        make_y_most_common_word_dicts y x unigram discussion_csv llm_csv detect1
          = make_y_most_common_word_dicts y x unigram discussion_csv llm_csv detect2) := by
  refine ⟨?_, ?_, ?_⟩
  · intro detect hd hl
    obtain ⟨drow, drest, rfl⟩ := List.exists_cons_of_ne_nil hd
    obtain ⟨lrow, lrest, rfl⟩ := List.exists_cons_of_ne_nil hl
    exact ⟨_, rfl⟩
  · intro detect w c res hdet hres hw
    obtain ⟨dlst, llst, hdeq, hleq, rfl⟩ := make_y_ok_elim hres
    have hkeep := (mem_survivors (most_common_subset hw)).1
    simp [detectKeep, hdet] at hkeep
  · intro detect1 detect2 hagree
    unfold make_y_most_common_word_dicts
    cases hdeq : dataset_to_list discussion_csv with
    | none => rfl
    | some dlst =>
      cases hleq : dataset_to_list llm_csv with
      | none => rfl
      | some llst =>
        show Except.ok (most_common y (survivors detect1 unigram x dlst llst))
          = Except.ok (most_common y (survivors detect2 unigram x dlst llst))
        rw [survivors_detect_congr (fun w hw => hagree w dlst hdeq hw)]

/-- Witness for C7 at a concrete input. -/
theorem claim_C7_witness :
    ∃ res, make_y_most_common_word_dicts 3 0 [] [["a"]] [["a"]] (fun _ => none)
      = .ok res :=
  (claim_C7 3 0 [] [["a"]] [["a"]]).1 (fun _ => none) (by simp) (by simp)

/-- C10: `dataset_to_list` returns exactly the first row of its file and
ignores all later rows; on a rowless file it returns `None`, and the
selector then fails on iterating `None` instead of treating the input as an
empty corpus. -/
theorem claim_C10 :
    (∀ (r : List String) (rest : List (List String)),
      dataset_to_list (r :: rest) = some r)
    ∧ dataset_to_list ([] : List (List String)) = none
    ∧ (∀ (y x : Nat) (unigram : List String) (llm_csv : List (List String))
        (detect : String → Option String),
        make_y_most_common_word_dicts y x unigram [] llm_csv detect
          = .error noneIterError) :=
  ⟨fun _ _ => rfl, rfl, fun _ _ _ _ _ => rfl⟩

/-- Python `del post[key]` on a mapping modelled as an association list:
every pair with that key is removed. -/
def eraseKey (post : List (String × Nat)) (k : String) : List (String × Nat) :=
  post.filter (fun p => !(p.1 == k))

/-- The per-document filtering step of `format_posts` (`main.py` lines
112-121): collect `keys_to_remove = [key for key in post if key not in
words_to_check]`, then delete each collected key from the mapping in place;
the value is the state of the mapping after the deletion loop. -/
def format_post (words_to_check : List String)
    (post : List (String × Nat)) : List (String × Nat) :=
  let keys_to_remove :=
    (post.map Prod.fst).filter (fun key => !(words_to_check.contains key))
  keys_to_remove.foldl eraseKey post

/-- `format_posts` applied to every loaded post and response mapping: the
pair of lists of per-document mappings as they stand after the deletion
loops. -/
def format_posts (words_to_check : List String)
    (posts llm_responses : List (List (String × Nat))) :
    List (List (String × Nat)) × List (List (String × Nat)) :=
  (posts.map (format_post words_to_check),
    llm_responses.map (format_post words_to_check))

theorem contains_iff (l : List String) (a : String) :
    l.contains a = true ↔ a ∈ l :=
  List.elem_iff

theorem contains_eq_false (l : List String) (a : String) (h : a ∉ l) :
    l.contains a = false :=
  Bool.eq_false_iff.mpr (fun ht => h ((contains_iff l a).mp ht))

theorem foldl_eraseKey (ks : List String) (post : List (String × Nat)) :
    ks.foldl eraseKey post = post.filter (fun p => !(ks.contains p.1)) := by
  induction ks generalizing post with
  | nil => simp
  | cons k ks ih =>
    rw [List.foldl_cons, ih]
    unfold eraseKey
    rw [List.filter_filter]
    apply List.filter_congr
    intro p _
    cases hpk : p.1 == k with
    | true =>
      have hm : p.1 ∈ k :: ks := List.mem_cons.mpr (Or.inl (by simpa using hpk))
      rw [(contains_iff (k :: ks) p.1).mpr hm]
      simp
    | false =>
      cases hks : ks.contains p.1 with
      | true =>
        have hm : p.1 ∈ k :: ks :=
          List.mem_cons_of_mem k ((contains_iff ks p.1).mp hks)
        rw [(contains_iff (k :: ks) p.1).mpr hm]
        simp
      | false =>
        have hm : p.1 ∉ k :: ks := by
          intro hmem
          rcases List.mem_cons.mp hmem with heq | hmem2
          · rw [heq] at hpk
            simp at hpk
          · rw [(contains_iff ks p.1).mpr hmem2] at hks
            exact Bool.noConfusion hks
        rw [contains_eq_false _ _ hm]
        simp

/-- C9 (amended): the deletion loop of `format_posts` leaves each loaded
per-document mapping holding exactly its pairs whose key is a candidate
word — it destructively restricts the mapping rather than leaving it
unchanged. -/
theorem claim_C9 (words_to_check : List String) (post : List (String × Nat)) :
    format_post words_to_check post
      = post.filter (fun p => words_to_check.contains p.1) := by
  unfold format_post
  rw [foldl_eraseKey]
  apply List.filter_congr
  intro p hp
  by_cases hmem : p.1 ∈ (post.map Prod.fst).filter
      (fun key => !(words_to_check.contains key))
  · have h2 := (List.mem_filter.mp hmem).2
    rw [Bool.not_eq_true'] at h2
    rw [(contains_iff _ p.1).mpr hmem, h2]
    rfl
  · have hc := contains_eq_false _ p.1 hmem
    rw [hc]
    have hmap : p.1 ∈ post.map Prod.fst := List.mem_map.mpr ⟨p, hp, rfl⟩
    cases hw : words_to_check.contains p.1 with
    | true => rfl
    | false =>
      exfalso
      apply hmem
      refine List.mem_filter.mpr ⟨hmap, ?_⟩
      rw [hw]
      rfl

/-- C9 counterexample: filtering a mapping down to the candidate set does
not leave the input mapping unchanged — the non-candidate key is deleted
from it. -/
theorem claim_C9_counterexample :
    format_post ["a"] [("a", 1), ("b", 2)] ≠ [("a", 1), ("b", 2)] := by
  decide

end Project109
